import Mathlib

/-!
Verification of the prices-predictor-system ingestion and model-building core.

The embedding follows `src/data_ingest.py` and `src/model_building.py`.
File-system state is passed explicitly: a directory is a list of named files,
a zip archive is a list of named entries, and `ZipDataIngestor.ingest` returns
the trace of file-system effects it performed together with the updated
directory and its result.  Python exceptions become explicit error values.
-/

namespace DataIngest

/-- A named file: an entry of a zip archive or an immediate entry of a
directory, together with its raw textual content. -/
structure FileEntry where
  name : String
  content : String
deriving Repr, DecidableEq

/-- A directory of immediate entries (the `../extracted_data` output location). -/
abbrev Dir := List FileEntry

/-- The errors raised by the ingestion code, one constructor per distinct
`raise` site, carrying the message from the source. -/
inductive IngestError where
  /-- `ValueError` from `ingest` for a path without the `.zip` extension. -/
  | invalidFormat (msg : String) : IngestError
  /-- `FileNotFoundError` from `ingest` when no CSV file was extracted. -/
  | notFound (msg : String) : IngestError
  /-- `ValueError` from `ingest` when several CSV files were extracted. -/
  | ambiguous (msg : String) : IngestError
  /-- `ValueError` from the factory for an unregistered extension. -/
  | unsupported (msg : String) : IngestError
deriving Repr, DecidableEq

/-- The file-system side effects `ingest` can perform, in the order it
performs them. -/
inductive Effect where
  | extractAll (archivePath : String) : Effect
  | listDir (dir : String) : Effect
  | readCsv (path : String) : Effect
deriving Repr, DecidableEq

/-- An in-memory table as produced by the CSV parser: named columns and
ordered rows. -/
structure DataFrame where
  columns : List String
  rows : List (List String)
deriving Repr, DecidableEq

/-- Python's case-sensitive `str.endswith`: the suffix's characters are a
suffix of the string's characters. -/
def endswith (s suffix : String) : Bool :=
  suffix.data.isSuffixOf s.data

/-- Split a character list at every occurrence of the separator. -/
def splitChar (c : Char) : List Char → List (List Char)
  | [] => [[]]
  | ch :: rest =>
      if ch = c then
        [] :: splitChar c rest
      else
        match splitChar c rest with
        | [] => [[ch]]
        | g :: gs => (ch :: g) :: gs

/-- Split a string at every occurrence of the separator character. -/
def strSplit (s : String) (c : Char) : List String :=
  (splitChar c s.data).map String.mk

/-- The nonempty lines of a CSV text (the default parser skips blank lines). -/
def csvLines (content : String) : List String :=
  (strSplit content (Char.ofNat 10)).filter (fun l => l ≠ "")

/-- Modelled from the spec: `pandas.read_csv` with default inference parses the
first line as the header of named columns and each further nonempty line as a
data row split on commas (§4.2: no explicit schema validation beyond what the
parser does natively). -/
def read_csv (content : String) : DataFrame :=
  match csvLines content with
  | [] => { columns := [], rows := [] }
  | header :: rest =>
      { columns := strSplit header (Char.ofNat 44)
        rows := rest.map (fun l => strSplit l (Char.ofNat 44)) }

/-- Writing one file into a directory: an entry overwrites an existing file of
the same name (`extractall` collision behaviour). -/
def writeFile (d : Dir) (e : FileEntry) : Dir :=
  d.filter (fun f => f.name ≠ e.name) ++ [e]

/-- `zipfile.ZipFile.extractall`: every entry of the archive is written into
the output directory, overwriting same-named files; prior files remain. -/
def extractAll (d : Dir) (archive : List FileEntry) : Dir :=
  archive.foldl writeFile d

/-- `os.listdir`: the names of the immediate entries of a directory. -/
def listdir (d : Dir) : List String :=
  d.map (fun e => e.name)

/-- The outcome of an `ingest` call: the file-system effects it performed in
order, the resulting state of `../extracted_data`, and its return value or
raised error. -/
structure IngestResult where
  trace : List Effect
  extractedData : Dir
  result : Except IngestError DataFrame
deriving Repr

/-- `ZipDataIngestor.ingest` (src/data_ingest.py lines 19-46).  `file_path` is
the argument, `archive` the entries of the zip file found at that path, and
`extractedData` the prior contents of the `../extracted_data` directory. -/
def ZipDataIngestor.ingest (file_path : String) (archive : List FileEntry)
    (extractedData : Dir) : IngestResult :=
  if ¬ endswith file_path ".zip" then
    { trace := []
      extractedData := extractedData
      result := .error (.invalidFormat "The provided file is not a .zip file.") }
  else
    let d := extractAll extractedData archive
    let extracted_files := listdir d
    let csv_files := extracted_files.filter (fun f => endswith f ".csv")
    match csv_files with
    | [] =>
        { trace := [.extractAll file_path, .listDir "../extracted_data"]
          extractedData := d
          result := .error (.notFound "No CSV files found in the extracted data.") }
    | [csvName] =>
        match d.find? (fun e => e.name == csvName) with
        | some e =>
            { trace := [.extractAll file_path, .listDir "../extracted_data",
                        .readCsv ("../extracted_data/" ++ csvName)]
              extractedData := d
              result := .ok (read_csv e.content) }
        | none =>
            { trace := [.extractAll file_path, .listDir "../extracted_data",
                        .readCsv ("../extracted_data/" ++ csvName)]
              extractedData := d
              result := .error (.notFound ("No such file: " ++ csvName)) }
    | _ :: _ :: _ =>
        { trace := [.extractAll file_path, .listDir "../extracted_data"]
          extractedData := d
          result := .error (.ambiguous "Multiple CSV files found in the extracted data.") }

/-- The ingestor instances the factory can return. -/
inductive Ingestor where
  | zip : Ingestor
deriving Repr, DecidableEq

/-- `DataIngestorFactory.get_data_ingestor` (src/data_ingest.py lines 50-64):
a pure lookup from the extension string to an ingestor. -/
def DataIngestorFactory.get_data_ingestor (file_extension : String) :
    Except IngestError Ingestor :=
  if file_extension == ".zip" then
    .ok .zip
  else
    .error (.unsupported
      ("No ingestor available for file extension: " ++ file_extension))

/-- The number of data rows of the source CSV text: its nonempty lines minus
the header line. -/
def sourceCsvRowCount (content : String) : Nat :=
  (csvLines content).length - 1

/-- The number of columns of the source CSV text: the comma-separated fields
of its header line. -/
def sourceCsvColCount (content : String) : Nat :=
  match csvLines content with
  | [] => 0
  | header :: _ => (strSplit header (Char.ofNat 44)).length

/-- The entries of a directory whose name ends in ".csv". -/
def csvEntries (d : Dir) : List FileEntry :=
  d.filter (fun f => endswith f.name ".csv")

end DataIngest

namespace DataIngest

/-- C1: a path that does not end with ".zip" makes `ZipDataIngestor.ingest`
fail with the unsupported-extension `InvalidFormat` error, with an empty
effect trace and the extraction directory untouched. -/
theorem ingest_invalidFormat_no_side_effects
    (file_path : String) (archive : List FileEntry) (d : Dir)
    (h : ¬ endswith file_path ".zip") :
    ZipDataIngestor.ingest file_path archive d =
      { trace := []
        extractedData := d
        result := .error (.invalidFormat "The provided file is not a .zip file.") } := by
  simp [ZipDataIngestor.ingest, h]

/-- Witness for C1 at the concrete path "data.csv". -/
theorem ingest_invalidFormat_no_side_effects_witness :
    ZipDataIngestor.ingest "data.csv" [⟨"a.csv", "x\n1"⟩] [] =
      { trace := []
        extractedData := []
        result := .error (.invalidFormat "The provided file is not a .zip file.") } :=
  ingest_invalidFormat_no_side_effects "data.csv" [⟨"a.csv", "x\n1"⟩] [] (by decide)

/-- C2: when the extracted directory ends up with zero files whose name ends
in ".csv", the loading phase of `ingest` fails with the `NotFoundError` and no
table is returned. -/
theorem ingest_zero_csv_notFound
    (file_path : String) (archive : List FileEntry) (d : Dir)
    (hz : endswith file_path ".zip")
    (h0 : (listdir (extractAll d archive)).filter (fun f => endswith f ".csv") = []) :
    (ZipDataIngestor.ingest file_path archive d).result =
      .error (.notFound "No CSV files found in the extracted data.") := by
  simp only [ZipDataIngestor.ingest, hz, not_true_eq_false, if_false, h0]

/-- Witness for C2: a zip archive containing a single non-CSV file. -/
theorem ingest_zero_csv_notFound_witness :
    endswith "archive.zip" ".zip" = true ∧
    (listdir (extractAll [] [⟨"readme.txt", "hello"⟩])).filter
      (fun f => endswith f ".csv") = [] ∧
    (ZipDataIngestor.ingest "archive.zip" [⟨"readme.txt", "hello"⟩] []).result =
      .error (.notFound "No CSV files found in the extracted data.") :=
  ⟨by decide, by decide,
    ingest_zero_csv_notFound "archive.zip" [⟨"readme.txt", "hello"⟩] []
      (by decide) (by decide)⟩

/-- C3: when the extracted directory ends up with two or more files whose name
ends in ".csv", the loading phase of `ingest` fails with the
`AmbiguousInputError`; no file is chosen by name, size, or recency. -/
theorem ingest_many_csv_ambiguous
    (file_path : String) (archive : List FileEntry) (d : Dir)
    (hz : endswith file_path ".zip")
    (h2 : 2 ≤ ((listdir (extractAll d archive)).filter
      (fun f => endswith f ".csv")).length) :
    (ZipDataIngestor.ingest file_path archive d).result =
      .error (.ambiguous "Multiple CSV files found in the extracted data.") := by
  simp only [ZipDataIngestor.ingest, hz, not_true_eq_false, if_false]
  rcases hcsv : (listdir (extractAll d archive)).filter
      (fun f => endswith f ".csv") with _ | ⟨a, _ | ⟨b, rest⟩⟩
  · rw [hcsv] at h2; simp at h2
  · rw [hcsv] at h2; simp at h2
  · rfl

/-- Witness for C3: a zip archive delivering two CSV files. -/
theorem ingest_many_csv_ambiguous_witness :
    endswith "archive.zip" ".zip" = true ∧
    2 ≤ ((listdir (extractAll []
      [⟨"a.csv", "x\n1"⟩, ⟨"b.csv", "y\n2"⟩])).filter
      (fun f => endswith f ".csv")).length ∧
    (ZipDataIngestor.ingest "archive.zip"
      [⟨"a.csv", "x\n1"⟩, ⟨"b.csv", "y\n2"⟩] []).result =
      .error (.ambiguous "Multiple CSV files found in the extracted data.") :=
  ⟨by decide, by decide,
    ingest_many_csv_ambiguous "archive.zip"
      [⟨"a.csv", "x\n1"⟩, ⟨"b.csv", "y\n2"⟩] [] (by decide) (by decide)⟩

/-- C4: `DataIngestorFactory.get_data_ingestor` is a pure lookup — a plain
function on the extension string with no file-system parameter, so no
extraction can occur: ".zip" maps to the `ZipDataIngestor`, every other
extension string fails with the `UnsupportedFormatError`. -/
theorem get_data_ingestor_pure_lookup :
    DataIngestorFactory.get_data_ingestor ".zip" = .ok .zip ∧
    ∀ ext : String, ext ≠ ".zip" →
      DataIngestorFactory.get_data_ingestor ext =
        .error (.unsupported ("No ingestor available for file extension: " ++ ext)) := by
  refine ⟨rfl, fun ext hne => ?_⟩
  simp only [DataIngestorFactory.get_data_ingestor, beq_iff_eq, hne, if_false]

/-- Witness for C4 at the concrete extensions ".json" and ".txt". -/
theorem get_data_ingestor_pure_lookup_witness :
    DataIngestorFactory.get_data_ingestor ".zip" = .ok .zip ∧
    DataIngestorFactory.get_data_ingestor ".json" =
      .error (.unsupported "No ingestor available for file extension: .json") ∧
    DataIngestorFactory.get_data_ingestor ".txt" =
      .error (.unsupported "No ingestor available for file extension: .txt") :=
  ⟨get_data_ingestor_pure_lookup.1,
    get_data_ingestor_pure_lookup.2 ".json" (by decide),
    get_data_ingestor_pure_lookup.2 ".txt" (by decide)⟩

/-- C9: extension matching is exact, case-sensitive string comparison: the
factory succeeds exactly on the literal string ".zip", and `ingest` rejects
with the unsupported-extension error any path whose character sequence does
not end with the lowercase ".zip". -/
theorem extension_matching_exact_case_sensitive :
    (∀ ext : String, DataIngestorFactory.get_data_ingestor ext = .ok .zip ↔
      ext = ".zip") ∧
    (∀ (path : String) (archive : List FileEntry) (d : Dir),
      endswith path ".zip" = false →
      (ZipDataIngestor.ingest path archive d).result =
        .error (.invalidFormat "The provided file is not a .zip file.")) := by
  constructor
  · intro ext
    constructor
    · intro h
      by_contra hne
      simp only [DataIngestorFactory.get_data_ingestor, beq_iff_eq, hne,
        if_false] at h
      exact Except.noConfusion h
    · intro h; subst h; rfl
  · intro path archive d h
    simp [ZipDataIngestor.ingest, h]

/-- Witness for C9 at the case-variant inputs ".ZIP", "zip", ".Zip" for the
factory and a path ending in ".ZIP" for `ingest`. -/
theorem extension_matching_exact_case_sensitive_witness :
    ¬ DataIngestorFactory.get_data_ingestor ".ZIP" = .ok .zip ∧
    ¬ DataIngestorFactory.get_data_ingestor "zip" = .ok .zip ∧
    ¬ DataIngestorFactory.get_data_ingestor ".Zip" = .ok .zip ∧
    DataIngestorFactory.get_data_ingestor ".zip" = .ok .zip ∧
    (ZipDataIngestor.ingest "a.ZIP" [⟨"a.csv", "x\n1"⟩] []).result =
      .error (.invalidFormat "The provided file is not a .zip file.") :=
  ⟨fun h => by simpa using (extension_matching_exact_case_sensitive.1 ".ZIP").mp h,
    fun h => by simpa using (extension_matching_exact_case_sensitive.1 "zip").mp h,
    fun h => by simpa using (extension_matching_exact_case_sensitive.1 ".Zip").mp h,
    (extension_matching_exact_case_sensitive.1 ".zip").mpr rfl,
    extension_matching_exact_case_sensitive.2 "a.ZIP" [⟨"a.csv", "x\n1"⟩] []
      (by decide)⟩

/-- Filtering twice commutes, whatever the two predicates. -/
theorem filter_swap {α : Type} (p q : α → Bool) :
    ∀ l : List α, (l.filter q).filter p = (l.filter p).filter q := by
  intro l
  induction l with
  | nil => rfl
  | cons a l ih =>
      by_cases hp : p a = true <;> by_cases hq : q a = true <;>
        simp [List.filter_cons, hp, hq, ih]

/-- The CSV entries after writing one file: same-named CSV entries are
replaced, and the new file is appended when it is itself a CSV. -/
theorem csvEntries_writeFile (d : Dir) (f : FileEntry) :
    csvEntries (writeFile d f) =
      (csvEntries d).filter (fun g => g.name ≠ f.name) ++
        (if endswith f.name ".csv" then [f] else []) := by
  unfold csvEntries writeFile
  rw [List.filter_append]
  congr 1
  · exact filter_swap _ _ d
  · by_cases hf : endswith f.name ".csv" = true <;>
      simp [List.filter_cons, hf]

/-- A directory with no CSV-named entry has no CSV entries. -/
theorem csvEntries_eq_nil :
    ∀ d : Dir, (∀ f ∈ d, endswith f.name ".csv" = false) → csvEntries d = [] := by
  intro d
  induction d with
  | nil => intro _; rfl
  | cons f rest ih =>
      intro hd
      unfold csvEntries
      rw [List.filter_cons, hd f (List.mem_cons_self f rest)]
      exact ih (fun g hg => hd g (List.mem_cons_of_mem f hg))

/-- Extracting entries that are the unique CSV `e` or non-CSV files keeps the
CSV entries of the directory exactly `[e]`. -/
theorem csvEntries_extractAll_preserve (e : FileEntry)
    (hcsv : endswith e.name ".csv" = true) :
    ∀ (rest : List FileEntry) (d : Dir), csvEntries d = [e] →
      (∀ f ∈ rest, f ≠ e → endswith f.name ".csv" = false) →
      csvEntries (extractAll d rest) = [e] := by
  intro rest
  induction rest with
  | nil => intro d hd _; exact hd
  | cons f rest ih =>
      intro d hd hrest
      show csvEntries (extractAll (writeFile d f) rest) = [e]
      apply ih
      · rw [csvEntries_writeFile, hd]
        by_cases hf : f = e
        · subst hf
          simp [hcsv, List.filter_cons]
        · have hfcsv : endswith f.name ".csv" = false :=
            hrest f (List.mem_cons_self f rest) hf
          have hname : e.name ≠ f.name := by
            intro hn
            rw [hn, hfcsv] at hcsv
            exact Bool.noConfusion hcsv
          simp [List.filter_cons, hname, hfcsv]
      · intro g hg hne
        exact hrest g (List.mem_cons_of_mem f hg) hne

/-- When the prior directory has no CSV-named file and the archive contains
exactly one CSV entry `e`, extraction leaves `e` as the directory's unique
CSV entry, with its content intact. -/
theorem csvEntries_extractAll_unique (e : FileEntry)
    (hcsv : endswith e.name ".csv" = true) :
    ∀ (archive : List FileEntry) (d : Dir),
      (∀ f ∈ d, endswith f.name ".csv" = false) →
      e ∈ archive →
      (∀ f ∈ archive, f ≠ e → endswith f.name ".csv" = false) →
      csvEntries (extractAll d archive) = [e] := by
  intro archive
  induction archive with
  | nil => intro d _ he _; exact absurd he (List.not_mem_nil e)
  | cons f rest ih =>
      intro d hd he hall
      show csvEntries (extractAll (writeFile d f) rest) = [e]
      by_cases hf : f = e
      · subst hf
        apply csvEntries_extractAll_preserve f hcsv rest
        · rw [csvEntries_writeFile, csvEntries_eq_nil d hd, hcsv]
          rfl
        · intro g hg hne
          exact hall g (List.mem_cons_of_mem f hg) hne
      · have hfcsv : endswith f.name ".csv" = false :=
          hall f (List.mem_cons_self f rest) hf
        apply ih (writeFile d f)
        · intro g hg
          unfold writeFile at hg
          rcases List.mem_append.mp hg with h1 | h2
          · exact hd g (List.mem_of_mem_filter h1)
          · have hgf : g = f := by simpa using h2
            rw [hgf]
            exact hfcsv
        · rcases List.mem_cons.mp he with h1 | h2
          · exact absurd h1.symm hf
          · exact h2
        · intro g hg hne
          exact hall g (List.mem_cons_of_mem f hg) hne

/-- The CSV-suffixed names among a directory listing are the names of its CSV
entries. -/
theorem listdir_filter_csv :
    ∀ d : Dir, (listdir d).filter (fun s => endswith s ".csv") =
      (csvEntries d).map FileEntry.name := by
  intro d
  induction d with
  | nil => rfl
  | cons f rest ih =>
      by_cases hf : endswith f.name ".csv" = true <;>
        simp [listdir, csvEntries, List.filter_cons, hf] at ih ⊢ <;>
        exact ih

/-- `find?` returns the unique element satisfying the predicate. -/
theorem find?_eq_of_unique {α : Type} (p : α → Bool) (e : α) :
    ∀ l : List α, e ∈ l → p e = true →
      (∀ x ∈ l, p x = true → x = e) → l.find? p = some e := by
  intro l
  induction l with
  | nil => intro he; exact absurd he (List.not_mem_nil e)
  | cons a l ih =>
      intro he hp huniq
      by_cases ha : p a = true
      · have hae : a = e := huniq a (List.mem_cons_self a l) ha
        subst hae
        exact List.find?_cons_of_pos l ha
      · rw [List.find?_cons_of_neg l ha]
        apply ih
        · rcases List.mem_cons.mp he with h1 | h2
          · exact absurd (h1 ▸ hp) ha
          · exact h2
        · exact hp
        · intro x hx hpx
          exact huniq x (List.mem_cons_of_mem a hx) hpx

/-- C8: for every archive containing exactly one CSV entry (any number of
non-CSV entries besides), ingested over any prior directory holding only
non-CSV leftovers, `ingest` returns the parse of that CSV file, whose row
count and column count match the source CSV text exactly. -/
theorem ingest_single_csv_roundtrip (path : String) (archive : List FileEntry)
    (d : Dir) (e : FileEntry)
    (hz : endswith path ".zip" = true)
    (hd : ∀ f ∈ d, endswith f.name ".csv" = false)
    (he : e ∈ archive)
    (hecsv : endswith e.name ".csv" = true)
    (hothers : ∀ f ∈ archive, f ≠ e → endswith f.name ".csv" = false) :
    (ZipDataIngestor.ingest path archive d).result = .ok (read_csv e.content) ∧
    (read_csv e.content).rows.length = sourceCsvRowCount e.content ∧
    (read_csv e.content).columns.length = sourceCsvColCount e.content := by
  have hfinal : csvEntries (extractAll d archive) = [e] :=
    csvEntries_extractAll_unique e hecsv archive d hd he hothers
  have hnames : (listdir (extractAll d archive)).filter
      (fun f => endswith f ".csv") = [e.name] := by
    rw [listdir_filter_csv, hfinal]
    rfl
  have hmem : e ∈ extractAll d archive := by
    have : e ∈ csvEntries (extractAll d archive) := by
      rw [hfinal]
      exact List.mem_cons_self e []
    exact List.mem_of_mem_filter this
  have hfind : (extractAll d archive).find? (fun g => g.name == e.name) =
      some e := by
    apply find?_eq_of_unique (fun g => g.name == e.name) e _ hmem (by simp)
    intro x hx hpx
    have hxname : x.name = e.name := by simpa using hpx
    have hxcsv : endswith x.name ".csv" = true := by
      rw [hxname]
      exact hecsv
    have hxin : x ∈ csvEntries (extractAll d archive) :=
      List.mem_filter.mpr ⟨hx, hxcsv⟩
    rw [hfinal] at hxin
    simpa using hxin
  refine ⟨?_, ?_, ?_⟩
  · simp only [ZipDataIngestor.ingest, hz, not_true_eq_false, if_false,
      hnames, hfind]
  · rcases hl : csvLines e.content with _ | ⟨header, rest⟩ <;>
      simp [read_csv, sourceCsvRowCount, hl]
  · rcases hl : csvLines e.content with _ | ⟨header, rest⟩ <;>
      simp [read_csv, sourceCsvColCount, hl]

/-- Witness for C8: an archive holding a non-CSV entry and one CSV entry,
ingested over a directory with a stale non-CSV leftover file. -/
theorem ingest_single_csv_roundtrip_witness :
    endswith "archive.zip" ".zip" = true ∧
    (∀ f ∈ ([⟨"old.txt", "stale"⟩] : Dir), endswith f.name ".csv" = false) ∧
    (⟨"AmesHousing.csv", "a,b\n1,2\n3,4"⟩ : FileEntry) ∈
      [⟨"notes.txt", "n"⟩, ⟨"AmesHousing.csv", "a,b\n1,2\n3,4"⟩] ∧
    endswith "AmesHousing.csv" ".csv" = true ∧
    (∀ f ∈ ([⟨"notes.txt", "n"⟩, ⟨"AmesHousing.csv", "a,b\n1,2\n3,4"⟩] :
        List FileEntry),
      f ≠ ⟨"AmesHousing.csv", "a,b\n1,2\n3,4"⟩ →
      endswith f.name ".csv" = false) ∧
    (ZipDataIngestor.ingest "archive.zip"
      [⟨"notes.txt", "n"⟩, ⟨"AmesHousing.csv", "a,b\n1,2\n3,4"⟩]
      [⟨"old.txt", "stale"⟩]).result = .ok (read_csv "a,b\n1,2\n3,4") ∧
    (read_csv "a,b\n1,2\n3,4").rows.length = sourceCsvRowCount "a,b\n1,2\n3,4" ∧
    (read_csv "a,b\n1,2\n3,4").columns.length = sourceCsvColCount "a,b\n1,2\n3,4" :=
  ⟨by decide, by decide, by decide, by decide, by decide,
    (ingest_single_csv_roundtrip "archive.zip"
      [⟨"notes.txt", "n"⟩, ⟨"AmesHousing.csv", "a,b\n1,2\n3,4"⟩]
      [⟨"old.txt", "stale"⟩] ⟨"AmesHousing.csv", "a,b\n1,2\n3,4"⟩
      (by decide) (by decide) (by decide) (by decide) (by decide)).1,
    (ingest_single_csv_roundtrip "archive.zip"
      [⟨"notes.txt", "n"⟩, ⟨"AmesHousing.csv", "a,b\n1,2\n3,4"⟩]
      [⟨"old.txt", "stale"⟩] ⟨"AmesHousing.csv", "a,b\n1,2\n3,4"⟩
      (by decide) (by decide) (by decide) (by decide) (by decide)).2⟩

end DataIngest

namespace ModelBuilding

/-- A Python value passed to the training interface: a pandas DataFrame of
rows, a pandas Series of values, or some other container such as a plain
list.  Cell contents are abstracted to integers: the claims here depend only
on container kind and row counts. -/
inductive PyVal where
  | frame (rows : List (List Int)) : PyVal
  | series (vals : List Int) : PyVal
  | pylist (vals : List Int) : PyVal
deriving Repr, DecidableEq

/-- `isinstance(x, pd.DataFrame)`. -/
def PyVal.isDataFrame : PyVal → Bool
  | .frame _ => true
  | _ => false

/-- `isinstance(x, pd.Series)`. -/
def PyVal.isSeries : PyVal → Bool
  | .series _ => true
  | _ => false

/-- The errors raised by the model-building code: the two explicit
`TypeError` raises, and the shape-mismatch failure of the underlying fit. -/
inductive ModelError where
  | typeError (msg : String) : ModelError
  | shapeMismatch (msg : String) : ModelError
deriving Repr, DecidableEq

/-- A fitted pipeline: an opaque artifact; the model records the data the
pipeline was fitted on. -/
structure FittedPipeline where
  trainRows : List (List Int)
  trainTarget : List Int
deriving Repr, DecidableEq

/-- Modelled from the spec (§4.4): the fit of the external two-stage pipeline
(StandardScaler then HistGradientBoostingRegressor), which is library code
outside this repository.  Per the spec, `features` and `target` must be
aligned by row and mismatched shapes fail with the `ShapeMismatchError`; a
successful fit produces a fresh artifact from exactly the provided data. -/
def Pipeline.fit (X : List (List Int)) (y : List Int) :
    Except ModelError FittedPipeline :=
  if X.length = y.length then
    .ok { trainRows := X, trainTarget := y }
  else
    .error (.shapeMismatch
      "Found input variables with inconsistent numbers of samples.")

/-- `LinearRegressionStrategy.build_and_train_model`
(src/model_building.py lines 37-67): validates the container kinds exactly as
the two `isinstance` checks do, X first, then fits the pipeline. -/
def LinearRegressionStrategy.build_and_train_model (X_train y_train : PyVal) :
    Except ModelError FittedPipeline :=
  match X_train with
  | .frame rows =>
      match y_train with
      | .series vals => Pipeline.fit rows vals
      | _ => .error (.typeError "y_train must be a pandas Series.")
  | _ => .error (.typeError "X_train must be a pandas DataFrame.")

/-- A model-building strategy: the `build_and_train_model` capability of the
`ModelBuildingStrategy` interface. -/
structure ModelBuildingStrategy where
  build_and_train_model : PyVal → PyVal → Except ModelError FittedPipeline

/-- The `LinearRegressionStrategy` as a strategy object. -/
def linearRegressionStrategy : ModelBuildingStrategy :=
  { build_and_train_model := LinearRegressionStrategy.build_and_train_model }

/-- `ModelBuilder` (src/model_building.py lines 70-102): its state is the
single `_strategy` field. -/
structure ModelBuilder where
  strategy : ModelBuildingStrategy

/-- `ModelBuilder.set_strategy`: replaces the stored strategy. -/
def ModelBuilder.set_strategy (b : ModelBuilder) (s : ModelBuildingStrategy) :
    ModelBuilder :=
  { b with strategy := s }

/-- `ModelBuilder.build_model`: delegates to the current strategy.  The
builder state after the call is returned explicitly so that mutation, or its
absence, is visible in the embedding. -/
def ModelBuilder.build_model (b : ModelBuilder) (X_train y_train : PyVal) :
    ModelBuilder × Except ModelError FittedPipeline :=
  (b, b.strategy.build_and_train_model X_train y_train)

/-- Modelled from the spec (§4.6, §6): the collaborator modules
`outlier_detector`, `check_missing_values` and `data_splitter` are code of
this repository not under src/; per the spec they are black-box stages of
type Table → Table and Table → (features_train, features_test, target_train,
target_test), so they are held abstract here. -/
structure Collaborators where
  od_main : PyVal → PyVal
  cmv_main : PyVal → PyVal
  ds_main : PyVal → PyVal × PyVal × PyVal × PyVal

/-- The orchestrator `main` (src/model_building.py lines 105-114). -/
def main (c : Collaborators) (df : PyVal) :
    Except ModelError FittedPipeline × PyVal × PyVal :=
  let df1 := c.od_main df
  let df2 := c.cmv_main df1
  let split := c.ds_main df2
  let X_train := split.1
  let X_test := split.2.1
  let y_train := split.2.2.1
  let y_test := split.2.2.2
  let model_builder : ModelBuilder := { strategy := linearRegressionStrategy }
  let built := model_builder.build_model X_train y_train
  (built.2, X_test, y_test)

/-- The orchestrator as the spec states it (§4.6): outlier removal first, the
missing-value stage on its output, the split stage on that output, the model
build on the resulting training split; the fitted model is returned with the
held-out features and held-out target. -/
def orchestrator_spec (c : Collaborators) (df : PyVal) :
    Except ModelError FittedPipeline × PyVal × PyVal :=
  let afterOutliers := c.od_main df
  let afterMissing := c.cmv_main afterOutliers
  let split := c.ds_main afterMissing
  (LinearRegressionStrategy.build_and_train_model split.1 split.2.2.1,
    split.2.1, split.2.2.2)

end ModelBuilding

namespace ModelBuilding

/-- C5: `LinearRegressionStrategy.build_and_train_model` fails with a
`TypeError` whenever `features` is not a pandas DataFrame or `target` is not
a pandas Series — no silent coercion — and, for DataFrame/Series inputs with
mismatched row counts, fails with the `ShapeMismatchError`. -/
theorem build_and_train_model_validation :
    (∀ X y : PyVal, X.isDataFrame = false ∨ y.isSeries = false →
      ∃ msg, LinearRegressionStrategy.build_and_train_model X y =
        .error (.typeError msg)) ∧
    (∀ (rows : List (List Int)) (vals : List Int), rows.length ≠ vals.length →
      LinearRegressionStrategy.build_and_train_model (.frame rows) (.series vals) =
        .error (.shapeMismatch
          "Found input variables with inconsistent numbers of samples.")) := by
  constructor
  · intro X y h
    cases X with
    | frame rows =>
        cases y with
        | frame r => exact ⟨_, rfl⟩
        | series v => simp [PyVal.isDataFrame, PyVal.isSeries] at h
        | pylist v => exact ⟨_, rfl⟩
    | series v => exact ⟨_, rfl⟩
    | pylist v => exact ⟨_, rfl⟩
  · intro rows vals hne
    simp [LinearRegressionStrategy.build_and_train_model, Pipeline.fit, hne]

/-- Witness for C5: a plain list as features fails with a `TypeError`, and a
two-row frame against a one-element series fails with the shape mismatch. -/
theorem build_and_train_model_validation_witness :
    ((PyVal.pylist [1]).isDataFrame = false ∨ (PyVal.series [1]).isSeries = false) ∧
    (∃ msg, LinearRegressionStrategy.build_and_train_model
      (.pylist [1]) (.series [1]) = .error (.typeError msg)) ∧
    ([[(1 : Int)], [2]].length ≠ [(3 : Int)].length) ∧
    LinearRegressionStrategy.build_and_train_model
      (.frame [[1], [2]]) (.series [3]) =
      .error (.shapeMismatch
        "Found input variables with inconsistent numbers of samples.") :=
  ⟨Or.inl rfl,
    build_and_train_model_validation.1 (.pylist [1]) (.series [1]) (Or.inl rfl),
    by decide,
    build_and_train_model_validation.2 [[1], [2]] [3] (by decide)⟩

/-- C6: `ModelBuilder.build_model` returns exactly the result of the held
strategy's `build_and_train_model` on the same inputs, for every builder and
every pair of inputs: the builder adds no validation or transformation. -/
theorem build_model_delegates_verbatim (b : ModelBuilder) (X y : PyVal) :
    (b.build_model X y).2 = b.strategy.build_and_train_model X y :=
  rfl

/-- C7: the orchestrator `main` equals the spec-side pipeline: outlier
removal, then the missing-value stage on its output, then the split on that
output, then the model build on the training split, returning the fitted
model with the held-out features and target. -/
theorem main_matches_orchestrator_spec (c : Collaborators) (df : PyVal) :
    main c df = orchestrator_spec c df :=
  rfl

/-- C10: `build_model` leaves the builder — in particular its strategy
field — unchanged, and `set_strategy` replaces the strategy field and
nothing else (the builder has no other state). -/
theorem builder_frame_conditions :
    (∀ (b : ModelBuilder) (X y : PyVal), (b.build_model X y).1 = b) ∧
    (∀ (b : ModelBuilder) (s : ModelBuildingStrategy),
      b.set_strategy s = { strategy := s }) :=
  ⟨fun _ _ _ => rfl, fun _ _ => rfl⟩

end ModelBuilding
